import Mathlib

/-!
Verification of the bookings repository's core: the validation layer
(src/utils/validation.ts) and the post access layer (the five server
functions fetchPosts, fetchPost, createPost, updatePost, deletePost).

JavaScript runtime values reaching the validation boundary are modelled by
`JSValue`; strings are Lean `String`s and `jsTrim` models
String.prototype.trim (restricted to ASCII whitespace, which is the only
whitespace exercised here). The record store is a list of `Post` records
threaded through each handler; a thrown exception is an `Except.error`
carrying a `HandlerError`, returned together with the store state at the
moment of the throw.
-/

namespace Bookings

/-- A JavaScript runtime value as seen by the validators: `undefined`,
`null`, a string, or any other non-null non-string value (number, object,
boolean, ...). -/
inductive JSValue where
  | undefined
  | null
  | str (s : String)
  | other
deriving DecidableEq

/-- A field-level validation error, mirroring the `ValidationError`
interface: a (field, message) pair. -/
structure ValidationError where
  field : String
  message : String
deriving DecidableEq

/-- The check `value === undefined || value === null || value === ""`
used by `validateStringField` and `validateId`. -/
def isAbsentOrEmpty : JSValue → Bool
  | .undefined => true
  | .null => true
  | .str s => s == ""
  | .other => false

/-- Character-list trim: drop leading then trailing whitespace. -/
def trimChars (l : List Char) : List Char :=
  (l.dropWhile Char.isWhitespace).rdropWhile Char.isWhitespace

/-- Models JavaScript String.prototype.trim (ASCII whitespace). -/
def jsTrim (s : String) : String :=
  ⟨trimChars s.data⟩

/-- Mirrors `validateStringField(value, fieldName, {required, minLength,
maxLength})`: required check first (early return), then absent-and-optional,
then the type check, then the trimmed length checks (min before max). -/
def validateStringField (value : JSValue) (fieldName : String)
    (required : Bool) (minLength maxLength : Option Nat) : List ValidationError :=
  if required && isAbsentOrEmpty value then
    [⟨fieldName, "is required"⟩]
  else if isAbsentOrEmpty value then
    []
  else
    match value with
    | .str s =>
      let trimmedValue := jsTrim s
      (match minLength with
       | some n =>
         if trimmedValue.length < n then
           [⟨fieldName, "must be at least " ++ toString n ++ " characters long"⟩]
         else []
       | none => []) ++
      (match maxLength with
       | some n =>
         if n < trimmedValue.length then
           [⟨fieldName, "must not exceed " ++ toString n ++ " characters"⟩]
         else []
       | none => [])
    | _ => [⟨fieldName, "must be a string"⟩]

/-- Mirrors the `PostValidationData` interface: untyped title and content. -/
structure PostValidationData where
  title : JSValue
  content : JSValue
deriving DecidableEq

/-- Mirrors `validatePostData`: title required with max 100, then content
optional with max 5000, errors concatenated in that order. -/
def validatePostData (data : PostValidationData) : List ValidationError :=
  validateStringField data.title "title" true none (some 100) ++
  validateStringField data.content "content" false none (some 5000)

/-- The sanitized output of `validateAndSanitizePostData`. -/
structure SanitizedPostData where
  title : String
  content : String
deriving DecidableEq

/-- The sanitizing coercion `typeof v === "string" ? v.trim() : ""`. -/
def sanitizeText : JSValue → String
  | .str s => jsTrim s
  | _ => ""

/-- Mirrors `validateAndSanitizePostData`: throws `ValidationException
errors` when `validatePostData` reports any error, else returns the trimmed
(or defensively empty) title and content. -/
def validateAndSanitizePostData (data : PostValidationData) :
    Except (List ValidationError) SanitizedPostData :=
  let errors := validatePostData data
  if 0 < errors.length then
    .error errors
  else
    .ok ⟨sanitizeText data.title, sanitizeText data.content⟩

/-- Mirrors `validateId`: "is required" when absent/empty, "must be a
string" when non-textual, "cannot be empty" when trimming to length 0. -/
def validateId (id : JSValue) (fieldName : String) : List ValidationError :=
  if isAbsentOrEmpty id then
    [⟨fieldName, "is required"⟩]
  else
    match id with
    | .str s =>
      if (jsTrim s).length == 0 then [⟨fieldName, "cannot be empty"⟩] else []
    | _ => [⟨fieldName, "must be a string"⟩]

/-- Mirrors `validateAndSanitizeId`: throws on any `validateId` error, else
returns the trimmed string (the non-string branch is unreachable because
`validateId` rejects every non-string). -/
def validateAndSanitizeId (id : JSValue) (fieldName : String) :
    Except (List ValidationError) String :=
  let errors := validateId id fieldName
  if 0 < errors.length then
    .error errors
  else
    match id with
    | .str s => .ok (jsTrim s)
    | _ => .ok ""

/-- A stored Post record: generated identifier, owner identifier from the
identity resolver, sanitized title and content, and the two timestamps. -/
structure Post where
  id : String
  userId : String
  title : String
  content : String
  createdAt : Nat
  updatedAt : Nat
deriving DecidableEq

/-- The conditions a handler can throw: `Error(SERVER_ERRORS.NO_REQUEST)`,
`Error(SERVER_ERRORS.UNAUTHORIZED)`, `ValidationException errors`, and the
router's `notFound()`. -/
inductive HandlerError where
  | noRequest
  | unauthorized
  | validationFailed (errors : List ValidationError)
  | notFound
deriving DecidableEq

/-- The descending created-timestamp order requested from the store by
`fetchPosts` via `orderBy: { createdAt: "desc" }`. -/
def byCreatedDesc (a b : Post) : Prop :=
  b.createdAt ≤ a.createdAt

instance : DecidableRel byCreatedDesc :=
  fun a b => Nat.decLe b.createdAt a.createdAt

instance : IsTotal Post byCreatedDesc :=
  ⟨fun a b => Nat.le_total b.createdAt a.createdAt⟩

instance : IsTrans Post byCreatedDesc :=
  ⟨fun _ _ _ hab hbc => Nat.le_trans hbc hab⟩

/-- The store query of `fetchPosts`: find-many filtered by owner, ordered
by created timestamp descending. -/
def findManyByOwnerDesc (store : List Post) (userId : String) : List Post :=
  List.insertionSort byCreatedDesc (store.filter fun p => p.userId == userId)

/-- Whether a stored record matches the owner-scoped identifier filter
`where { id, userId }` used by fetchPost, updatePost and deletePost. -/
def matchesIdOwner (id userId : String) (p : Post) : Bool :=
  p.id == id && p.userId == userId

/-- Mirrors the `fetchPosts` handler: request check, auth check, then the
owner-filtered descending query. The store is returned unchanged. -/
def fetchPosts (webRequest : Bool) (auth : Option String) (store : List Post) :
    Except HandlerError (List Post) × List Post :=
  if !webRequest then (.error .noRequest, store)
  else
    match auth with
    | none => (.error .unauthorized, store)
    | some userId => (.ok (findManyByOwnerDesc store userId), store)

/-- Mirrors the `fetchPost` handler: request check, auth check, id
validation, then `findFirst` on (id AND userId); `notFound()` when no
record matches. -/
def fetchPost (webRequest : Bool) (auth : Option String) (store : List Post)
    (postId : JSValue) : Except HandlerError Post × List Post :=
  if !webRequest then (.error .noRequest, store)
  else
    match auth with
    | none => (.error .unauthorized, store)
    | some userId =>
      match validateAndSanitizeId postId "postId" with
      | .error errors => (.error (.validationFailed errors), store)
      | .ok validatedId =>
        match store.find? (matchesIdOwner validatedId userId) with
        | none => (.error .notFound, store)
        | some post => (.ok post, store)

/-- Mirrors the `createPost` handler: request check, auth check, post data
validation, then `db.post.create` with the sanitized fields, the caller as
owner, a store-generated id and both timestamps set to now. -/
def createPost (webRequest : Bool) (auth : Option String) (store : List Post)
    (data : PostValidationData) (newId : String) (now : Nat) :
    Except HandlerError Post × List Post :=
  if !webRequest then (.error .noRequest, store)
  else
    match auth with
    | none => (.error .unauthorized, store)
    | some userId =>
      match validateAndSanitizePostData data with
      | .error errors => (.error (.validationFailed errors), store)
      | .ok validatedData =>
        let post : Post :=
          ⟨newId, userId, validatedData.title, validatedData.content, now, now⟩
        (.ok post, store ++ [post])

/-- Mirrors the `updatePost` handler: request check, auth check, post data
validation first, id validation second, then `updateMany` on (id AND
userId); `notFound()` when the update count is zero, else `findUnique` by
id alone on the updated store. -/
def updatePost (webRequest : Bool) (auth : Option String) (store : List Post)
    (id title content : JSValue) (now : Nat) :
    Except HandlerError (Option Post) × List Post :=
  if !webRequest then (.error .noRequest, store)
  else
    match auth with
    | none => (.error .unauthorized, store)
    | some userId =>
      match validateAndSanitizePostData ⟨title, content⟩ with
      | .error errors => (.error (.validationFailed errors), store)
      | .ok validatedData =>
        match validateAndSanitizeId id "postId" with
        | .error errors => (.error (.validationFailed errors), store)
        | .ok validatedId =>
          let count := (store.filter (matchesIdOwner validatedId userId)).length
          let newStore := store.map fun p =>
            if matchesIdOwner validatedId userId p then
              ⟨p.id, p.userId, validatedData.title, validatedData.content,
                p.createdAt, now⟩
            else p
          if count == 0 then (.error .notFound, newStore)
          else (.ok (newStore.find? fun p => p.id == validatedId), newStore)

/-- Mirrors the `deletePost` handler: request check, auth check, id
validation, then `deleteMany` on (id AND userId); `notFound()` when the
delete count is zero, else a success acknowledgement. -/
def deletePost (webRequest : Bool) (auth : Option String) (store : List Post)
    (postId : JSValue) : Except HandlerError Bool × List Post :=
  if !webRequest then (.error .noRequest, store)
  else
    match auth with
    | none => (.error .unauthorized, store)
    | some userId =>
      match validateAndSanitizeId postId "postId" with
      | .error errors => (.error (.validationFailed errors), store)
      | .ok validatedId =>
        let count := (store.filter (matchesIdOwner validatedId userId)).length
        let newStore := store.filter fun p => !matchesIdOwner validatedId userId p
        if count == 0 then (.error .notFound, newStore)
        else (.ok true, newStore)

theorem dropWhile_eq_self_of_prefix {α : Type} (p : α → Bool) {t d : List α}
    (h : t <+: d) (hd : d.dropWhile p = d) : t.dropWhile p = t := by
  cases t with
  | nil => simp
  | cons a t' =>
    obtain ⟨r, hr⟩ := h
    subst hr
    rw [List.cons_append] at hd
    rw [List.dropWhile_cons] at hd ⊢
    by_cases hpa : p a = true
    · rw [if_pos hpa] at hd
      have hlen : (List.dropWhile p (t' ++ r)).length ≤ (t' ++ r).length :=
        (List.dropWhile_sublist p).length_le
      rw [hd] at hlen
      simp at hlen
    · rw [if_neg hpa]

theorem trimChars_idem (l : List Char) : trimChars (trimChars l) = trimChars l := by
  unfold trimChars
  have h1 : (l.dropWhile Char.isWhitespace).dropWhile Char.isWhitespace =
      l.dropWhile Char.isWhitespace :=
    List.dropWhile_idempotent Char.isWhitespace l
  have hpre :=
    List.rdropWhile_prefix Char.isWhitespace (l.dropWhile Char.isWhitespace)
  have h2 := dropWhile_eq_self_of_prefix Char.isWhitespace hpre h1
  rw [h2, List.rdropWhile_idempotent]

theorem jsTrim_idem (s : String) : jsTrim (jsTrim s) = jsTrim s :=
  congrArg String.mk (trimChars_idem s.data)

theorem jsTrim_empty : jsTrim "" = "" := rfl

theorem validateStringField_field_eq (v : JSValue) (fn : String) (req : Bool)
    (minL maxL : Option Nat) :
    ∀ e ∈ validateStringField v fn req minL maxL, e.field = fn := by
  intro e he
  cases v <;> cases minL <;> cases maxL <;>
    simp only [validateStringField, isAbsentOrEmpty] at he <;>
    split_ifs at he <;>
    (try simp_all [List.mem_append]) <;>
    (rcases he with rfl | rfl <;> rfl)

theorem validateStringField_req_max_eq_nil (v : JSValue) (fn : String) (n : Nat) :
    validateStringField v fn true none (some n) = [] ↔
      ∃ s, v = .str s ∧ s ≠ "" ∧ (jsTrim s).length ≤ n := by
  cases v <;>
    simp only [validateStringField, isAbsentOrEmpty, Bool.true_and] <;>
    split_ifs <;>
    simp_all

theorem validateStringField_opt_max_eq_nil (v : JSValue) (fn : String) (n : Nat) :
    validateStringField v fn false none (some n) = [] ↔
      (v = .undefined ∨ v = .null ∨ ∃ s, v = .str s ∧ (jsTrim s).length ≤ n) := by
  cases v <;>
    simp only [validateStringField, isAbsentOrEmpty, Bool.false_and] <;>
    split_ifs <;>
    simp_all [jsTrim_empty]

theorem string_eq_empty_iff (s : String) : s = "" ↔ s.data = [] := by
  rw [String.ext_iff]

theorem string_length_eq_zero_iff (s : String) : s.length = 0 ↔ s = "" := by
  rw [string_eq_empty_iff, ← List.length_eq_zero]
  exact Iff.rfl

theorem validatePostData_eq_nil (d : PostValidationData) :
    validatePostData d = [] ↔
      validateStringField d.title "title" true none (some 100) = [] ∧
      validateStringField d.content "content" false none (some 5000) = [] := by
  simp [validatePostData, List.append_eq_nil]

theorem validateAndSanitizePostData_error_iff (d : PostValidationData)
    (errs : List ValidationError) :
    validateAndSanitizePostData d = .error errs ↔
      errs = validatePostData d ∧ errs ≠ [] := by
  unfold validateAndSanitizePostData
  by_cases h : 0 < (validatePostData d).length
  · have hne := List.length_pos.mp h
    simp only [if_pos h, Except.error.injEq]
    constructor
    · intro he
      exact ⟨he.symm, he ▸ hne⟩
    · intro he
      exact he.1.symm
  · have hnil : validatePostData d = [] := by
      rw [← List.length_eq_zero]; omega
    simp [if_neg h, hnil]

theorem validateAndSanitizePostData_ok_iff (d : PostValidationData)
    (r : SanitizedPostData) :
    validateAndSanitizePostData d = .ok r ↔
      validatePostData d = [] ∧
        r = ⟨sanitizeText d.title, sanitizeText d.content⟩ := by
  unfold validateAndSanitizePostData
  by_cases h : 0 < (validatePostData d).length
  · have hne := List.length_pos.mp h
    simp [if_pos h, hne]
  · have hnil : validatePostData d = [] := by
      rw [← List.length_eq_zero]; omega
    simp [if_neg h, hnil, eq_comm]

theorem validateId_eq_nil (v : JSValue) (fn : String) :
    validateId v fn = [] ↔ ∃ s, v = .str s ∧ s ≠ "" ∧ jsTrim s ≠ "" := by
  cases v <;>
    simp only [validateId, isAbsentOrEmpty] <;>
    split_ifs <;>
    simp_all [string_length_eq_zero_iff]

theorem validateAndSanitizeId_ok_iff (v : JSValue) (fn vid : String) :
    validateAndSanitizeId v fn = .ok vid ↔
      ∃ s, v = .str s ∧ s ≠ "" ∧ jsTrim s ≠ "" ∧ vid = jsTrim s := by
  unfold validateAndSanitizeId
  by_cases h : 0 < (validateId v fn).length
  · have hne := List.length_pos.mp h
    rw [if_pos h]
    constructor
    · intro he
      exact absurd he (by simp)
    · intro he
      obtain ⟨s, hv, hs, ht, _⟩ := he
      exact absurd ((validateId_eq_nil v fn).mpr ⟨s, hv, hs, ht⟩) hne
  · have hnil : validateId v fn = [] := by
      rw [← List.length_eq_zero]; omega
    obtain ⟨s, hv, hs, ht⟩ := (validateId_eq_nil v fn).mp hnil
    subst hv
    rw [if_neg h]
    simp only [Except.ok.injEq]
    constructor
    · intro he
      exact ⟨s, rfl, hs, ht, he.symm⟩
    · intro he
      obtain ⟨s', hv', _, _, hvid⟩ := he
      cases hv'
      exact hvid.symm

theorem createPost_ok_eval (uid newId : String) (store : List Post)
    (d : PostValidationData) (now : Nat) (v : SanitizedPostData)
    (hv : validateAndSanitizePostData d = .ok v) :
    createPost true (some uid) store d newId now =
      (.ok ⟨newId, uid, v.title, v.content, now, now⟩,
       store ++ [⟨newId, uid, v.title, v.content, now, now⟩]) := by
  simp [createPost, hv]

theorem createPost_err_eval (uid newId : String) (store : List Post)
    (d : PostValidationData) (now : Nat) (e : List ValidationError)
    (hv : validateAndSanitizePostData d = .error e) :
    createPost true (some uid) store d newId now =
      (.error (.validationFailed e), store) := by
  simp [createPost, hv]

theorem updatePost_err_eval (uid : String) (store : List Post)
    (id title content : JSValue) (now : Nat) (e : List ValidationError)
    (hv : validateAndSanitizePostData ⟨title, content⟩ = .error e) :
    updatePost true (some uid) store id title content now =
      (.error (.validationFailed e), store) := by
  simp [updatePost, hv]

theorem updatePost_ok_eval (uid vid : String) (store : List Post)
    (id title content : JSValue) (now : Nat) (v : SanitizedPostData)
    (hv : validateAndSanitizePostData ⟨title, content⟩ = .ok v)
    (hv' : validateAndSanitizeId id "postId" = .ok vid) :
    updatePost true (some uid) store id title content now =
      (if (store.filter (matchesIdOwner vid uid)).length == 0 then
         (.error .notFound,
          store.map fun p =>
            if matchesIdOwner vid uid p then
              ⟨p.id, p.userId, v.title, v.content, p.createdAt, now⟩
            else p)
       else
         (.ok ((store.map fun p =>
             if matchesIdOwner vid uid p then
               ⟨p.id, p.userId, v.title, v.content, p.createdAt, now⟩
             else p).find? fun p => p.id == vid),
          store.map fun p =>
            if matchesIdOwner vid uid p then
              ⟨p.id, p.userId, v.title, v.content, p.createdAt, now⟩
            else p)) := by
  simp only [updatePost, Bool.not_true, Bool.false_eq_true, if_false, hv, hv']

theorem deletePost_eval (uid vid : String) (store : List Post)
    (postId : JSValue)
    (hid : validateAndSanitizeId postId "postId" = .ok vid) :
    deletePost true (some uid) store postId =
      (if (store.filter (matchesIdOwner vid uid)).length == 0 then
         (.error .notFound, store.filter fun p => !matchesIdOwner vid uid p)
       else
         (.ok true, store.filter fun p => !matchesIdOwner vid uid p)) := by
  simp only [deletePost, Bool.not_true, Bool.false_eq_true, if_false, hid]

theorem fetchPost_eval (uid vid : String) (store : List Post)
    (postId : JSValue)
    (hid : validateAndSanitizeId postId "postId" = .ok vid) :
    fetchPost true (some uid) store postId =
      (match store.find? (matchesIdOwner vid uid) with
       | none => (.error .notFound, store)
       | some post => (.ok post, store)) := by
  simp only [fetchPost, Bool.not_true, Bool.false_eq_true, if_false, hid]

theorem title_of_validatePostData_eq_nil (d : PostValidationData)
    (h : validatePostData d = []) :
    ∃ s, d.title = .str s ∧ s ≠ "" ∧ (jsTrim s).length ≤ 100 :=
  (validateStringField_req_max_eq_nil d.title "title" 100).mp
    ((validatePostData_eq_nil d).mp h).1

theorem content_sanitized_of_validatePostData_eq_nil (d : PostValidationData)
    (h : validatePostData d = []) :
    jsTrim (sanitizeText d.content) = sanitizeText d.content ∧
      (sanitizeText d.content).length ≤ 5000 := by
  have hcases :=
    (validateStringField_opt_max_eq_nil d.content "content" 5000).mp
      ((validatePostData_eq_nil d).mp h).2
  rcases hcases with hu | hn | ⟨c, hc, hlen⟩
  · rw [hu]
    exact ⟨jsTrim_empty, by simp [sanitizeText]⟩
  · rw [hn]
    exact ⟨jsTrim_empty, by simp [sanitizeText]⟩
  · rw [hc]
    exact ⟨jsTrim_idem c, hlen⟩

/-- C4: for every input value and every combination of minLength/maxLength
options, `validateStringField` with required = true and an absent or empty
value (undefined, null, or the empty string) returns exactly the single
error "is required" and checks nothing else. -/
theorem required_absent_single_error (v : JSValue) (fn : String)
    (minL maxL : Option Nat)
    (h : v = .undefined ∨ v = .null ∨ v = .str "") :
    validateStringField v fn true minL maxL = [⟨fn, "is required"⟩] := by
  have habs : isAbsentOrEmpty v = true := by
    rcases h with rfl | rfl | rfl <;> simp [isAbsentOrEmpty]
  simp [validateStringField, habs]

/-- C4 witness: the empty string with both length options set still yields
exactly the single "is required" error. -/
theorem required_absent_single_error_witness :
    validateStringField (.str "") "title" true (some 5) (some 10) =
      [⟨"title", "is required"⟩] :=
  required_absent_single_error (.str "") "title" (some 5) (some 10)
    (Or.inr (Or.inr rfl))

/-- C3: `validateAndSanitizePostData` fails carrying exactly the
`validatePostData` error sequence iff that sequence is non-empty, and
otherwise returns the trimmed title and content, each coerced to the empty
string when the runtime value is not textual (`sanitizeText`). -/
theorem sanitize_raises_iff (d : PostValidationData)
    (errs : List ValidationError) (r : SanitizedPostData) :
    (validateAndSanitizePostData d = .error errs ↔
       errs = validatePostData d ∧ errs ≠ []) ∧
    (validateAndSanitizePostData d = .ok r ↔
       validatePostData d = [] ∧
         r = ⟨sanitizeText d.title, sanitizeText d.content⟩) :=
  ⟨validateAndSanitizePostData_error_iff d errs,
   validateAndSanitizePostData_ok_iff d r⟩

/-- C2 counterexample: the whitespace-only title "   " is accepted by
createPost and persisted with a sanitized title whose trimmed length is 0,
outside the claimed interval [1, 100]. -/
theorem title_length_counterexample :
    createPost true (some "alice") [] ⟨.str "   ", .str "x"⟩ "p1" 0 =
      (.ok ⟨"p1", "alice", "", "x", 0, 0⟩, [⟨"p1", "alice", "", "x", 0, 0⟩]) ∧
    (jsTrim "").length = 0 :=
  ⟨rfl, rfl⟩

/-- C2 amended: every Post produced by a successful createPost or updatePost
has a title that is already trimmed and of length at most 100; the lower
bound of 1 does not hold, since a whitespace-only title is accepted and
persisted as the empty string. -/
theorem title_length_upper_bound (uid : String) (store : List Post) (now : Nat) :
    (∀ d newId p store₁,
       createPost true (some uid) store d newId now = (.ok p, store₁) →
       p.title.length ≤ 100 ∧ jsTrim p.title = p.title) ∧
    (∀ id title content res store',
       updatePost true (some uid) store id title content now = (.ok res, store') →
       ∀ q ∈ store', q ∈ store ∨
         (q.title.length ≤ 100 ∧ jsTrim q.title = q.title)) := by
  constructor
  · intro d newId p store₁ hc
    cases hv : validateAndSanitizePostData d with
    | error e =>
      rw [createPost_err_eval uid newId store d now e hv] at hc
      exact absurd hc (by simp)
    | ok v =>
      rw [createPost_ok_eval uid newId store d now v hv] at hc
      obtain ⟨hnil, hval⟩ := (validateAndSanitizePostData_ok_iff d v).mp hv
      obtain ⟨s, hts, _, hlen⟩ := title_of_validatePostData_eq_nil d hnil
      simp only [Prod.mk.injEq, Except.ok.injEq] at hc
      obtain ⟨hp, _⟩ := hc
      subst hp
      subst hval
      simp only [sanitizeText, hts]
      exact ⟨hlen, jsTrim_idem s⟩
  · intro id title content res store' hu q hq
    cases hv : validateAndSanitizePostData ⟨title, content⟩ with
    | error e =>
      rw [updatePost_err_eval uid store id title content now e hv] at hu
      exact absurd hu (by simp)
    | ok v =>
      cases hv' : validateAndSanitizeId id "postId" with
      | error e =>
        have heval : updatePost true (some uid) store id title content now =
            (.error (.validationFailed e), store) := by
          simp only [updatePost, Bool.not_true, Bool.false_eq_true, if_false,
            hv, hv']
        rw [heval] at hu
        exact absurd hu (by simp)
      | ok vid =>
        rw [updatePost_ok_eval uid vid store id title content now v hv hv'] at hu
        obtain ⟨hnil, hval⟩ :=
          (validateAndSanitizePostData_ok_iff ⟨title, content⟩ v).mp hv
        obtain ⟨s, hts, _, hlen⟩ :=
          title_of_validatePostData_eq_nil ⟨title, content⟩ hnil
        have hts' : title = JSValue.str s := hts
        have htitle : v.title = jsTrim s := by
          rw [hval]
          simp [sanitizeText, hts']
        have hst : store' = store.map fun p =>
            if matchesIdOwner vid uid p then
              ⟨p.id, p.userId, v.title, v.content, p.createdAt, now⟩
            else p := by
          by_cases hcount :
              ((store.filter (matchesIdOwner vid uid)).length == 0) = true
          · rw [if_pos hcount] at hu
            exact absurd hu (by simp)
          · rw [if_neg hcount] at hu
            exact ((Prod.mk.injEq _ _ _ _).mp hu).2.symm
        subst hst
        rw [List.mem_map] at hq
        obtain ⟨a, ha, hqa⟩ := hq
        by_cases hm : matchesIdOwner vid uid a = true
        · right
          rw [if_pos hm] at hqa
          subst hqa
          simp only [htitle]
          exact ⟨by simpa using hlen, by rw [jsTrim_idem]⟩
        · left
          rw [if_neg hm] at hqa
          subst hqa
          exact ha

/-- C2 witness: a concrete successful createPost whose persisted title is
trimmed with length at most 100. -/
theorem title_length_upper_bound_witness :
    createPost true (some "alice") [] ⟨.str " Hi ", .str "x"⟩ "p1" 0 =
      (.ok ⟨"p1", "alice", "Hi", "x", 0, 0⟩, [⟨"p1", "alice", "Hi", "x", 0, 0⟩]) ∧
    (Post.title ⟨"p1", "alice", "Hi", "x", 0, 0⟩).length ≤ 100 ∧
    jsTrim (Post.title ⟨"p1", "alice", "Hi", "x", 0, 0⟩) =
      Post.title ⟨"p1", "alice", "Hi", "x", 0, 0⟩ :=
  ⟨rfl,
   (title_length_upper_bound "alice" [] 0).1 ⟨.str " Hi ", .str "x"⟩ "p1"
     ⟨"p1", "alice", "Hi", "x", 0, 0⟩ [⟨"p1", "alice", "Hi", "x", 0, 0⟩] rfl⟩

/-- C5 counterexample: the input ("   ", "World") is accepted by the
sanitizer, but re-sanitizing its output fails with "title is required", so
sanitization is not idempotent on every accepted input. -/
theorem sanitize_idempotence_counterexample :
    validateAndSanitizePostData ⟨.str "   ", .str "World"⟩ = .ok ⟨"", "World"⟩ ∧
    validateAndSanitizePostData ⟨.str "", .str "World"⟩ =
      .error [⟨"title", "is required"⟩] :=
  ⟨rfl, rfl⟩

/-- C5 amended: for every accepted input whose sanitized title is non-empty
(equivalently, whose title does not trim to the empty string), re-sanitizing
the output succeeds and returns it unchanged; the concrete example
("  Hello  ", "  World  ") yields {Hello, World}. -/
theorem sanitize_idempotent_nonempty_title (d : PostValidationData)
    (r : SanitizedPostData)
    (h : validateAndSanitizePostData d = .ok r) (hne : r.title ≠ "") :
    validateAndSanitizePostData ⟨.str r.title, .str r.content⟩ = .ok r ∧
    validateAndSanitizePostData ⟨.str "  Hello  ", .str "  World  "⟩ =
      .ok ⟨"Hello", "World"⟩ := by
  refine ⟨?_, rfl⟩
  obtain ⟨hnil, hval⟩ := (validateAndSanitizePostData_ok_iff d r).mp h
  obtain ⟨s, hts, _, hlen⟩ := title_of_validatePostData_eq_nil d hnil
  obtain ⟨hctrim, hclen⟩ := content_sanitized_of_validatePostData_eq_nil d hnil
  have htitle : r.title = jsTrim s := by
    rw [hval]
    simp [sanitizeText, hts]
  have hcontent : r.content = sanitizeText d.content := by
    rw [hval]
  refine (validateAndSanitizePostData_ok_iff _ _).mpr ⟨?_, ?_⟩
  · refine (validatePostData_eq_nil _).mpr ⟨?_, ?_⟩
    · refine (validateStringField_req_max_eq_nil _ "title" 100).mpr
        ⟨r.title, rfl, hne, ?_⟩
      rw [htitle, jsTrim_idem]
      exact hlen
    · refine (validateStringField_opt_max_eq_nil _ "content" 5000).mpr
        (Or.inr (Or.inr ⟨r.content, rfl, ?_⟩))
      rw [hcontent, hctrim]
      exact hclen
  · have h1 : sanitizeText (.str r.title) = r.title := by
      rw [htitle]
      exact jsTrim_idem s
    have h2 : sanitizeText (.str r.content) = r.content := by
      rw [hcontent]
      exact hctrim
    simp [h1, h2]

/-- C5 witness: applying the amended idempotence theorem to the accepted
input ("  Hello  ", "  World  ") shows re-sanitizing {Hello, World} is a
no-op. -/
theorem sanitize_idempotent_nonempty_title_witness :
    validateAndSanitizePostData ⟨.str "Hello", .str "World"⟩ =
      .ok ⟨"Hello", "World"⟩ ∧
    validateAndSanitizePostData ⟨.str "  Hello  ", .str "  World  "⟩ =
      .ok ⟨"Hello", "World"⟩ :=
  sanitize_idempotent_nonempty_title ⟨.str "  Hello  ", .str "  World  "⟩
    ⟨"Hello", "World"⟩ rfl (by decide)

/-- C10: a non-empty title that trims to the empty string produces no
validation error (the required check tests the un-trimmed value and no
minimum length is configured); the sanitized title is the empty string, and
createPost and updatePost persist it. -/
theorem whitespace_only_title_accepted (s : String) (c : JSValue)
    (hs : s ≠ "") (ht : jsTrim s = "")
    (hc : validateStringField c "content" false none (some 5000) = []) :
    validatePostData ⟨.str s, c⟩ = [] ∧
    validateAndSanitizePostData ⟨.str s, c⟩ = .ok ⟨"", sanitizeText c⟩ ∧
    (∀ uid newId now store,
       createPost true (some uid) store ⟨.str s, c⟩ newId now =
         (.ok ⟨newId, uid, "", sanitizeText c, now, now⟩,
          store ++ [⟨newId, uid, "", sanitizeText c, now, now⟩])) ∧
    (∀ uid vid now store rawId,
       validateAndSanitizeId rawId "postId" = .ok vid →
       (updatePost true (some uid) store rawId (.str s) c now).2 =
         store.map fun p =>
           if matchesIdOwner vid uid p then
             ⟨p.id, p.userId, "", sanitizeText c, p.createdAt, now⟩
           else p) := by
  have hnil : validatePostData ⟨.str s, c⟩ = [] := by
    refine (validatePostData_eq_nil _).mpr ⟨?_, hc⟩
    refine (validateStringField_req_max_eq_nil _ "title" 100).mpr
      ⟨s, rfl, hs, ?_⟩
    rw [ht]
    simp
  have hok : validateAndSanitizePostData ⟨.str s, c⟩ = .ok ⟨"", sanitizeText c⟩ := by
    refine (validateAndSanitizePostData_ok_iff _ _).mpr ⟨hnil, ?_⟩
    simp [sanitizeText, ht]
  refine ⟨hnil, hok, ?_, ?_⟩
  · intro uid newId now store
    exact createPost_ok_eval uid newId store ⟨.str s, c⟩ now ⟨"", sanitizeText c⟩ hok
  · intro uid vid now store rawId hid
    rw [updatePost_ok_eval uid vid store rawId (.str s) c now
      ⟨"", sanitizeText c⟩ hok hid]
    by_cases hcount : ((store.filter (matchesIdOwner vid uid)).length == 0) = true
    · rw [if_pos hcount]
    · rw [if_neg hcount]

/-- C10 witness: the single-space title " " is accepted alongside content
"x" and createPost persists the empty title. -/
theorem whitespace_only_title_accepted_witness :
    validatePostData ⟨.str " ", .str "x"⟩ = [] ∧
    validateAndSanitizePostData ⟨.str " ", .str "x"⟩ = .ok ⟨"", "x"⟩ ∧
    createPost true (some "alice") [] ⟨.str " ", .str "x"⟩ "p1" 0 =
      (.ok ⟨"p1", "alice", "", "x", 0, 0⟩, [⟨"p1", "alice", "", "x", 0, 0⟩]) :=
  have h := whitespace_only_title_accepted " " (.str "x") (by decide) rfl rfl
  ⟨h.1, h.2.1, h.2.2.1 "alice" "p1" 0 []⟩

/-- C7: with a request present but no resolvable caller identity, every one
of the five operations fails with Unauthorized — never with a validation
error, whatever the inputs — and returns the store unchanged, so no
validation and no store write happens in that run. -/
theorem unauthenticated_fails_closed (store : List Post) :
    fetchPosts true none store = (.error .unauthorized, store) ∧
    (∀ postId, fetchPost true none store postId =
       (.error .unauthorized, store)) ∧
    (∀ d newId now, createPost true none store d newId now =
       (.error .unauthorized, store)) ∧
    (∀ id title content now, updatePost true none store id title content now =
       (.error .unauthorized, store)) ∧
    (∀ postId, deletePost true none store postId =
       (.error .unauthorized, store)) :=
  ⟨rfl, fun _ => rfl, fun _ _ _ => rfl, fun _ _ _ _ => rfl, fun _ => rfl⟩

/-- C8: fetchPosts succeeds for every authenticated caller and returns
exactly the caller-owned posts, sorted by created timestamp descending; a
caller with zero posts gets the empty sequence, never NotFound. -/
theorem fetchPosts_owner_scoped_sorted (uid : String) (store : List Post) :
    fetchPosts true (some uid) store =
      (.ok (findManyByOwnerDesc store uid), store) ∧
    (findManyByOwnerDesc store uid).Perm
      (store.filter fun p => p.userId == uid) ∧
    (findManyByOwnerDesc store uid).Pairwise
      (fun a b => b.createdAt ≤ a.createdAt) ∧
    (∀ p ∈ findManyByOwnerDesc store uid, p.userId = uid) ∧
    ((∀ p ∈ store, p.userId ≠ uid) →
       fetchPosts true (some uid) store = (.ok [], store)) := by
  refine ⟨rfl, ?_, ?_, ?_, ?_⟩
  · exact List.perm_insertionSort byCreatedDesc _
  · exact List.sorted_insertionSort byCreatedDesc _
  · intro p hp
    rw [findManyByOwnerDesc, List.mem_insertionSort] at hp
    simpa using (List.mem_filter.mp hp).2
  · intro hnone
    have hfil : store.filter (fun p => p.userId == uid) = [] :=
      List.filter_eq_nil_iff.mpr fun p hp => by simpa using hnone p hp
    simp [fetchPosts, findManyByOwnerDesc, hfil]

/-- C1: when no stored Post carrying the sanitized identifier is owned by
the caller — in particular when such a Post exists but belongs to a
different identity — fetchPost, updatePost and deletePost all report
NotFound and leave the store unchanged, and any Post fetchPost ever returns
is owned by the caller: an ownership mismatch is indistinguishable from
nonexistence. -/
theorem ownership_scoping (uid vid : String) (store : List Post)
    (rawId : JSValue)
    (hid : validateAndSanitizeId rawId "postId" = .ok vid)
    (hown : ∀ q ∈ store, q.id = vid → q.userId ≠ uid) :
    fetchPost true (some uid) store rawId = (.error .notFound, store) ∧
    (∀ title content now,
       validatePostData ⟨title, content⟩ = [] →
       updatePost true (some uid) store rawId title content now =
         (.error .notFound, store)) ∧
    deletePost true (some uid) store rawId = (.error .notFound, store) ∧
    (∀ store₂ p store₃,
       fetchPost true (some uid) store₂ rawId = (.ok p, store₃) →
       p.userId = uid) := by
  have hmatch : ∀ q ∈ store, matchesIdOwner vid uid q = false := by
    intro q hq
    unfold matchesIdOwner
    by_cases hqid : q.id = vid
    · have hqu := hown q hq hqid
      simp [hqid, hqu]
    · simp [hqid]
  have hfind : store.find? (matchesIdOwner vid uid) = none :=
    List.find?_eq_none.mpr fun q hq => by simp [hmatch q hq]
  have hfil : store.filter (matchesIdOwner vid uid) = [] :=
    List.filter_eq_nil_iff.mpr fun q hq => by simp [hmatch q hq]
  have hkeep : (store.filter fun q => !matchesIdOwner vid uid q) = store :=
    List.filter_eq_self.mpr fun q hq => by simp [hmatch q hq]
  have hmap : ∀ (f : Post → Post),
      (store.map fun p => if matchesIdOwner vid uid p then f p else p) = store := by
    intro f
    have : (store.map fun p => if matchesIdOwner vid uid p then f p else p) =
        store.map id :=
      List.map_congr_left fun a ha => by rw [if_neg (by simp [hmatch a ha])]; rfl
    rw [this, List.map_id]
  refine ⟨?_, ?_, ?_, ?_⟩
  · rw [fetchPost_eval uid vid store rawId hid, hfind]
  · intro title content now hvalid
    have hok : validateAndSanitizePostData ⟨title, content⟩ =
        .ok ⟨sanitizeText title, sanitizeText content⟩ :=
      (validateAndSanitizePostData_ok_iff _ _).mpr ⟨hvalid, rfl⟩
    rw [updatePost_ok_eval uid vid store rawId title content now _ hok hid]
    rw [if_pos (by simp [hfil])]
    rw [hmap]
  · rw [deletePost_eval uid vid store rawId hid]
    rw [if_pos (by simp [hfil]), hkeep]
  · intro store₂ p store₃ hfetch
    rw [fetchPost_eval uid vid store₂ rawId hid] at hfetch
    cases hfind₂ : store₂.find? (matchesIdOwner vid uid) with
    | none =>
      rw [hfind₂] at hfetch
      exact absurd hfetch (by simp)
    | some q =>
      rw [hfind₂] at hfetch
      have hq : matchesIdOwner vid uid q = true := List.find?_some hfind₂
      have hpq : q = p := by
        have h2 := (Prod.mk.injEq _ _ _ _).mp hfetch
        exact (Except.ok.injEq _ _).mp h2.1
      subst hpq
      unfold matchesIdOwner at hq
      exact by simpa using (Bool.and_elim_right hq)

/-- C1 witness: caller bob, a store holding only alice's post p1; fetching
and deleting p1 as bob both report NotFound and leave the store intact. -/
theorem ownership_scoping_witness :
    fetchPost true (some "bob") [⟨"p1", "alice", "T", "C", 1, 1⟩] (.str "p1") =
      (.error .notFound, [⟨"p1", "alice", "T", "C", 1, 1⟩]) ∧
    deletePost true (some "bob") [⟨"p1", "alice", "T", "C", 1, 1⟩] (.str "p1") =
      (.error .notFound, [⟨"p1", "alice", "T", "C", 1, 1⟩]) :=
  have h := ownership_scoping "bob" "p1" [⟨"p1", "alice", "T", "C", 1, 1⟩]
    (.str "p1") rfl (by decide)
  ⟨h.1, h.2.2.1⟩

/-- C6: deletePost deletes by the (id AND owner) filter and returns NotFound
exactly when the deleted count is zero, a success acknowledgement otherwise;
consequently, after creating a post, the first delete succeeds and a second
delete of the same identifier reports NotFound. -/
theorem deletePost_count_and_double_delete (uid vid : String)
    (store : List Post) (rawId : JSValue)
    (hid : validateAndSanitizeId rawId "postId" = .ok vid) :
    (store.filter (matchesIdOwner vid uid) = [] →
       deletePost true (some uid) store rawId = (.error .notFound, store)) ∧
    (store.filter (matchesIdOwner vid uid) ≠ [] →
       deletePost true (some uid) store rawId =
         (.ok true, store.filter fun p => !matchesIdOwner vid uid p)) ∧
    (∀ d newId now p store₁,
       createPost true (some uid) store d newId now = (.ok p, store₁) →
       jsTrim newId = newId → newId ≠ "" →
       deletePost true (some uid) store₁ (.str newId) =
         (.ok true, store₁.filter fun q => !matchesIdOwner newId uid q) ∧
       deletePost true (some uid)
           (store₁.filter fun q => !matchesIdOwner newId uid q) (.str newId) =
         (.error .notFound,
          store₁.filter fun q => !matchesIdOwner newId uid q)) := by
  refine ⟨?_, ?_, ?_⟩
  · intro hnil
    have hkeep : (store.filter fun p => !matchesIdOwner vid uid p) = store := by
      refine List.filter_eq_self.mpr fun q hq => ?_
      have : matchesIdOwner vid uid q = false := by
        by_contra hc
        have hq' : matchesIdOwner vid uid q = true := by
          cases hm : matchesIdOwner vid uid q
          · exact absurd hm hc
          · rfl
        have : q ∈ store.filter (matchesIdOwner vid uid) :=
          List.mem_filter.mpr ⟨hq, hq'⟩
        rw [hnil] at this
        exact absurd this (List.not_mem_nil q)
      simp [this]
    rw [deletePost_eval uid vid store rawId hid, if_pos (by simp [hnil]), hkeep]
  · intro hne
    rw [deletePost_eval uid vid store rawId hid, if_neg]
    simp only [beq_iff_eq, List.length_eq_zero]
    exact hne
  · intro d newId now p store₁ hc htrim hne
    have hid' : validateAndSanitizeId (.str newId) "postId" = .ok newId :=
      (validateAndSanitizeId_ok_iff (.str newId) "postId" newId).mpr
        ⟨newId, rfl, hne, by rw [htrim]; exact hne, htrim.symm⟩
    cases hv : validateAndSanitizePostData d with
    | error e =>
      rw [createPost_err_eval uid newId store d now e hv] at hc
      exact absurd hc (by simp)
    | ok v =>
      rw [createPost_ok_eval uid newId store d now v hv] at hc
      obtain ⟨hp, hst⟩ := (Prod.mk.injEq _ _ _ _).mp hc
      have hp' : (⟨newId, uid, v.title, v.content, now, now⟩ : Post) = p :=
        (Except.ok.injEq _ _).mp hp
      subst hst
      subst hp'
      have hmem : (⟨newId, uid, v.title, v.content, now, now⟩ : Post) ∈
          (store ++ [(⟨newId, uid, v.title, v.content, now, now⟩ : Post)]).filter
            (matchesIdOwner newId uid) :=
        List.mem_filter.mpr ⟨by simp, by simp [matchesIdOwner]⟩
      constructor
      · rw [deletePost_eval uid newId _ (.str newId) hid', if_neg]
        intro hzero
        rw [beq_iff_eq, List.length_eq_zero] at hzero
        rw [hzero] at hmem
        exact absurd hmem (List.not_mem_nil _)
      · generalize hs2 :
          (store ++ [(⟨newId, uid, v.title, v.content, now, now⟩ : Post)]).filter
            (fun q => !matchesIdOwner newId uid q) = store₂
        have hmatch₂ : ∀ q ∈ store₂, matchesIdOwner newId uid q = false := by
          intro q hq
          rw [← hs2] at hq
          simpa using (List.mem_filter.mp hq).2
        have hfil₂ : store₂.filter (matchesIdOwner newId uid) = [] :=
          List.filter_eq_nil_iff.mpr fun q hq => by simp [hmatch₂ q hq]
        have hkeep₂ : (store₂.filter fun q => !matchesIdOwner newId uid q) =
            store₂ :=
          List.filter_eq_self.mpr fun q hq => by simp [hmatch₂ q hq]
        rw [deletePost_eval uid newId store₂ (.str newId) hid',
          if_pos (by simp [hfil₂]), hkeep₂]

/-- C6 witness: alice creates p1 in an empty store; the first delete succeeds
and empties the store, the second delete reports NotFound. -/
theorem deletePost_double_delete_witness :
    deletePost true (some "alice") [⟨"p1", "alice", "T", "C", 0, 0⟩]
        (.str "p1") = (.ok true, []) ∧
    deletePost true (some "alice") [] (.str "p1") = (.error .notFound, []) :=
  (deletePost_count_and_double_delete "alice" "p1" [] (.str "p1") rfl).2.2
    ⟨.str "T", .str "C"⟩ "p1" 0 ⟨"p1", "alice", "T", "C", 0, 0⟩
    [⟨"p1", "alice", "T", "C", 0, 0⟩] rfl rfl (by decide)

/-- C9: updatePost runs the title/content validation before the id
validation: whenever both are invalid, the raised error carries exactly the
validatePostData error sequence and no error on the id field "postId". -/
theorem updatePost_validates_data_before_id (uid : String) (store : List Post)
    (id title content : JSValue) (now : Nat)
    (hbad : validatePostData ⟨title, content⟩ ≠ [])
    (hbadid : validateId id "postId" ≠ []) :
    updatePost true (some uid) store id title content now =
      (.error (.validationFailed (validatePostData ⟨title, content⟩)), store) ∧
    (∀ e ∈ validatePostData ⟨title, content⟩, e.field ≠ "postId") := by
  constructor
  · have herr : validateAndSanitizePostData ⟨title, content⟩ =
        .error (validatePostData ⟨title, content⟩) :=
      (validateAndSanitizePostData_error_iff _ _).mpr ⟨rfl, hbad⟩
    exact updatePost_err_eval uid store id title content now _ herr
  · intro e he
    rw [validatePostData] at he
    rcases List.mem_append.mp he with h | h
    · have hf := validateStringField_field_eq _ "title" true none (some 100) e h
      rw [hf]
      decide
    · have hf :=
        validateStringField_field_eq _ "content" false none (some 5000) e h
      rw [hf]
      decide

/-- C9 witness: with an empty title, an invalid id and valid content, the
update fails carrying only the title error, which is not on "postId". -/
theorem updatePost_validates_data_before_id_witness :
    updatePost true (some "u") [] (.str "") (.str "") (.str "ok") 0 =
      (.error (.validationFailed [⟨"title", "is required"⟩]), []) ∧
    ValidationError.field ⟨"title", "is required"⟩ ≠ "postId" :=
  have h := updatePost_validates_data_before_id "u" [] (.str "") (.str "")
    (.str "ok") 0 (by decide) (by decide)
  ⟨h.1, h.2 ⟨"title", "is required"⟩ (by decide)⟩

end Bookings
